import Mathlib

/-!
Verification of the SecureChat relay server and E2EE module.

Server side (`src/server.js`): sessions live in a `Map` keyed by session id,
each holding a set of connected socket ids, a creation timestamp, a
last-activity timestamp and a fixed capacity of 2.  Handlers for
`join-session`, `encrypted-message`, `key-exchange`, `typing` and
`disconnect` are embedded as pure functions over this registry, with the
wall clock (`new Date()`) passed explicitly as an integer millisecond
timestamp.  JavaScript compares `(now - createdAt) / 3600000 >= 24`; over
the integers this is exactly `now - createdAt >= 86400000`.

Client side (`e2ee.js`, the `E2EE` class): ECDH + PBKDF2 key derivation and
AES-256-GCM encryption are platform primitives (Web Crypto), modelled here
by executable deterministic functions with the interface properties the
wrapper relies on: `aesGcmEncrypt` is length-preserving on the ciphertext
part and appends a 16-byte tag; `aesGcmDecrypt` recomputes the tag and
returns the plaintext exactly when the tag matches.  The `E2EE` wrapper
logic (state, envelope splitting/joining, error paths) is embedded from the
source.
-/

namespace SecureChat

abbrev SessionId := String
abbrev ConnId := String
abbrev Time := Int

/-- One session, as stored in the server's `sessions` map:
`{ users: Set, createdAt, lastActivity, maxUsers: 2 }`. -/
structure Session where
  users : List ConnId
  createdAt : Time
  lastActivity : Time
  maxUsers : Nat
deriving Repr, DecidableEq

/-- The `sessions` map, `sessionId -> Session`, as an association list with
unique keys. -/
abbrev Registry := List (SessionId × Session)

/-- Source `sessions.get(id)`. -/
def regGet : Registry → SessionId → Option Session
  | [], _ => none
  | (k, v) :: r, id => if k = id then some v else regGet r id

/-- Source `sessions.set(id, s)`. -/
def regSet : Registry → SessionId → Session → Registry
  | [], id, s => [(id, s)]
  | (k, v) :: r, id, s => if k = id then (k, s) :: r else (k, v) :: regSet r id s

/-- Source `sessions.delete(id)`. -/
def regDelete : Registry → SessionId → Registry
  | [], _ => []
  | (k, v) :: r, id => if k = id then regDelete r id else (k, v) :: regDelete r id

/-- Expiry horizon `SESSION_EXPIRY_HOURS = 24`, in milliseconds:
`(now - createdAt) / 3600000 >= 24  ↔  now - createdAt >= 86400000`. -/
def SESSION_EXPIRY_MS : Time := 86400000

/-- Source `isValidSessionId`: the regex `^[A-Za-z0-9_-]{43}$`. -/
def isValidSessionId (s : SessionId) : Bool :=
  s.toList.length == 43 && s.toList.all (fun c => c.isAlphanum || c == '_' || c == '-')

/-- Source `session.users.add(conn)`: `users` is a JS `Set`, so adding an existing
member is a no-op. -/
def addUser (s : Session) (conn : ConnId) : Session :=
  if conn ∈ s.users then s else { s with users := s.users ++ [conn] }

/-- Source `createSession` (without the random id generation, passed in instead):
inserts `{ users: ∅, createdAt: now, lastActivity: now, maxUsers: 2 }`. -/
def createSession (r : Registry) (id : SessionId) (now : Time) : Registry :=
  regSet r id ⟨[], now, now, 2⟩

/-- Source `canJoinSession`: false if unknown; on expiry deletes the session and
returns false; false if at capacity; true otherwise.  Returns the updated
registry because of the eviction side effect. -/
def canJoinSession (r : Registry) (now : Time) (id : SessionId) : Bool × Registry :=
  match regGet r id with
  | none => (false, r)
  | some s =>
    if SESSION_EXPIRY_MS ≤ now - s.createdAt then (false, regDelete r id)
    else if s.maxUsers ≤ s.users.length then (false, r)
    else (true, r)

/-- Source `isSessionValidForMessaging`: like `canJoinSession` but with no capacity
check — a full session must still relay. -/
def isSessionValidForMessaging (r : Registry) (now : Time) (id : SessionId) :
    Bool × Registry :=
  match regGet r id with
  | none => (false, r)
  | some s =>
    if SESSION_EXPIRY_MS ≤ now - s.createdAt then (false, regDelete r id)
    else (true, r)

/-- Source `updateSessionActivity`: refresh `lastActivity` if the session exists. -/
def updateSessionActivity (r : Registry) (now : Time) (id : SessionId) : Registry :=
  match regGet r id with
  | none => r
  | some s => regSet r id { s with lastActivity := now }

/-- Admission failures (§7 taxonomy).  The wire protocol collapses
`NotFound`/`Expired`/`Full` into one generic error message; the constructors
name the three distinct `canJoinSession` branches. -/
inductive JoinError
  | InvalidSessionId
  | NotFound
  | Expired
  | Full
deriving Repr, DecidableEq

inductive Role
  | Initiator
  | Joiner
deriving Repr, DecidableEq

/-- The `join-session` handler (admission in the spec): validate the id
format, run the `canJoinSession` checks (branches distinguished per the
taxonomy), then add the connection, refresh activity, and classify the role
from the post-admission participant count. -/
def joinSession (r : Registry) (now : Time) (id : SessionId) (conn : ConnId) :
    Except JoinError Role × Registry :=
  if ¬ isValidSessionId id then (.error .InvalidSessionId, r)
  else match regGet r id with
  | none => (.error .NotFound, r)
  | some s =>
    if SESSION_EXPIRY_MS ≤ now - s.createdAt then (.error .Expired, regDelete r id)
    else if s.maxUsers ≤ s.users.length then (.error .Full, r)
    else
      let s1 := addUser s conn
      let r1 := updateSessionActivity (regSet r id s1) now id
      let role := if s1.users.length == 1 then Role.Initiator else Role.Joiner
      (.ok role, r1)

/-- Relay failures (§7 taxonomy).  On the wire, `NoSession` and
`SessionInvalid` share the message `Session expired or invalid` and
`NotAMember` is `Not a member of this session`. -/
inductive RelayError
  | NoSession
  | SessionInvalid
  | NotAMember
deriving Repr, DecidableEq

/-- Payload broadcast by the `encrypted-message` handler: the three
envelope fields plus the relay-side timestamp `new Date().toISOString()`. -/
structure RelayMsg where
  encryptedData : String
  iv : String
  tag : String
  timestamp : Time
deriving Repr, DecidableEq

/-- The `encrypted-message` handler: fail without a current session id;
fail if `isSessionValidForMessaging` is false (this can evict the session);
fail if the sender's socket id is not in the session's user set; otherwise
refresh activity and broadcast `{encryptedData, iv, tag, timestamp}` to the
session's room.  The incoming `publicKey` field is dropped, not forwarded. -/
def relayMessage (r : Registry) (now : Time) (cur : Option SessionId)
    (sender : ConnId) (encryptedData iv tag publicKey : String) :
    Except RelayError (SessionId × RelayMsg) × Registry :=
  match cur with
  | none => (.error .NoSession, r)
  | some sid =>
    let (valid, r1) := isSessionValidForMessaging r now sid
    if ¬ valid then (.error .SessionInvalid, r1)
    else match regGet r1 sid with
      | none => (.error .NotAMember, r1)
      | some s =>
        if sender ∈ s.users then
          (.ok (sid, ⟨encryptedData, iv, tag, now⟩), updateSessionActivity r1 now sid)
        else (.error .NotAMember, r1)

/-- The `key-exchange` handler: silently drop when there is no current
session id, otherwise forward `{publicKey}` to the session's room.  The
registry is in scope but never consulted: no expiry, existence or
membership check. -/
def keyExchange (r : Registry) (cur : Option SessionId) (publicKey : String) :
    Option (SessionId × String) :=
  match cur with
  | none => none
  | some sid => some (sid, publicKey)

/-- The `typing` handler: silently drop when there is no current session
id, otherwise forward `{userId, isTyping}` to the session's room.  As with
`keyExchange`, the registry is never consulted. -/
def relayTyping (r : Registry) (cur : Option SessionId) (userId : String)
    (isTyping : Bool) : Option (SessionId × String × Bool) :=
  match cur with
  | none => none
  | some sid => some (sid, userId, isTyping)

/-- The `disconnect` handler: remove the socket from its session's user
set and delete the session if that leaves it empty. -/
def disconnectOp (r : Registry) (cur : Option SessionId) (conn : ConnId) : Registry :=
  match cur with
  | none => r
  | some sid =>
    match regGet r sid with
    | none => r
    | some s =>
      let s1 := { s with users := s.users.filter (fun u => u ≠ conn) }
      if s1.users.length = 0 then regDelete r sid
      else regSet r sid s1

/-- The hourly `setInterval` sweep: evict every session whose age reached
the expiry horizon. -/
def sweepOp (r : Registry) (now : Time) : Registry :=
  r.filter (fun e => !(decide (SESSION_EXPIRY_MS ≤ now - e.2.createdAt)))

/-- The `create-session` socket handler: `createSession`, then add the
creator to the fresh session and refresh activity. -/
def createSocketOp (r : Registry) (id : SessionId) (conn : ConnId) (now : Time) :
    Registry :=
  let r1 := createSession r id now
  match regGet r1 id with
  | none => r1
  | some s => updateSessionActivity (regSet r1 id (addUser s conn)) now id

/-- Registry states reachable by the server's event handlers, starting from
the empty map.  `createHttp` is the `/chat/new` HTTP route, which calls
`createSession` and redirects without admitting anyone.  The `key-exchange`
and `typing` handlers do not touch the registry and are omitted. -/
inductive Reachable : Registry → Prop
  | empty : Reachable []
  | createHttp (r : Registry) (id : SessionId) (now : Time) :
      Reachable r → Reachable (createSession r id now)
  | createSocket (r : Registry) (id : SessionId) (conn : ConnId) (now : Time) :
      Reachable r → Reachable (createSocketOp r id conn now)
  | joinStep (r : Registry) (now : Time) (id : SessionId) (conn : ConnId) :
      Reachable r → Reachable (joinSession r now id conn).2
  | messageStep (r : Registry) (now : Time) (cur : Option SessionId)
      (sender : ConnId) (e i t p : String) :
      Reachable r → Reachable (relayMessage r now cur sender e i t p).2
  | disconnectStep (r : Registry) (cur : Option SessionId) (conn : ConnId) :
      Reachable r → Reachable (disconnectOp r cur conn)
  | sweepStep (r : Registry) (now : Time) :
      Reachable r → Reachable (sweepOp r now)

/-- A well-formed 43-character base64url session id, for concrete runs. -/
def sid0 : SessionId := "aaaaaaaaaaaaaaaaaaaaaaaaaaaaaaaaaaaaaaaaaaa"

/-! ## E2EE module (`e2ee.js`)

The Web Crypto primitives (the `crypto.subtle` ECDH, PBKDF2 and AES-GCM calls) are
platform library calls, not repository code.  They are modelled below by
small executable deterministic functions exposing exactly the interface
contract the `E2EE` wrapper relies on; the wrapper itself (state fields,
readiness errors, ciphertext/tag splitting and re-joining) is embedded
from the source. -/

/-- Byte strings: lists of naturals below 256 where it matters. -/
abbrev Bytes := List Nat

/-- Model of `crypto.subtle.importKey with raw peer bytes for ECDH on P-256`:
well-formedness of the peer public key bytes (a valid point on the
curve); the import throws on anything else. -/
def validPeerKey (pk : Nat) : Bool :=
  pk % 7919 ≠ 0

/-- Model of `crypto.subtle.deriveBits for ECDH over the own private and peer public key, 256 bits`:
a deterministic function of the own private key and the peer public key. -/
def ecdhBits (priv peerPub : Nat) : Nat :=
  (priv * peerPub + priv + peerPub) % 65521

/-- Source `stringToArrayBuffer applied to the salt literal`: the fixed PBKDF2 salt. -/
def saltBytes : Bytes :=
  "SecureChat-E2EE-Salt".toList.map Char.toNat

/-- Model of `crypto.subtle.deriveKey for PBKDF2 with salt, iteration
count and SHA-256, yielding a 256-bit AES-GCM key`: a
deterministic function of the secret bits, the salt and the iteration
count — no internal randomness. -/
def pbkdf2 (secret : Nat) (salt : Bytes) (iterations : Nat) : Nat :=
  (salt.foldl (fun h b => (h * 31 + b) % 65536) 7 + secret * 131 + iterations * 17) % 65536

/-- A mixing of the 12-byte IV into one keystream seed. -/
def ivSeed (iv : Bytes) : Nat :=
  iv.foldl (fun a b => a * 31 + b) 7

/-- Keystream masking for the AES-GCM model: byte `i` of the message is
xored with a keystream byte determined by `(key, iv, i)`.  Applying the
same mask twice is the identity. -/
def maskFrom (key ivh : Nat) : Nat → Bytes → Bytes
  | _, [] => []
  | i, b :: bs => (b ^^^ ((key + ivh * 131 + i * 251) % 256)) :: maskFrom key ivh (i + 1) bs

/-- The 16-byte (128-bit) authentication tag of the AES-GCM model, bound to
the key, the IV and the ciphertext. -/
def computeTag (key ivh : Nat) (ct : Bytes) : Bytes :=
  (List.range 16).map
    (fun j => (ct.foldl (fun a b => (a * 31 + b) % 65536) (key + ivh) + j * 7 + key) % 256)

/-- Model of `crypto.subtle.encrypt for AES-GCM with a 128-bit tag under
key and iv applied to msg`: ciphertext of the message's length with the 16-byte tag
appended, as GCM produces. -/
def aesGcmEncrypt (key : Nat) (iv : Bytes) (msg : Bytes) : Bytes :=
  let ct := maskFrom key (ivSeed iv) 0 msg
  ct ++ computeTag key (ivSeed iv) ct

/-- Model of `crypto.subtle.decrypt for AES-GCM with a 128-bit tag under
key and iv applied to the joined ciphertext`: split off the trailing 16-byte tag, recompute it from the
received ciphertext, and return the plaintext exactly when it matches. -/
def aesGcmDecrypt (key : Nat) (iv : Bytes) (encrypted : Bytes) : Option Bytes :=
  if encrypted.drop (encrypted.length - 16)
      = computeTag key (ivSeed iv) (encrypted.take (encrypted.length - 16)) then
    some (maskFrom key (ivSeed iv) 0 (encrypted.take (encrypted.length - 16)))
  else none

/-- One party's ECDH key pair (`this.keyPair`). -/
structure KeyPair where
  priv : Nat
  pub : Nat
deriving Repr, DecidableEq

/-- The `E2EE` class state: `keyPair`, `sharedSecret`, `encryptionKey`,
all `null` until established. -/
structure E2EE where
  keyPair : Option KeyPair
  sharedSecret : Option Nat
  encryptionKey : Option Nat
deriving Repr, DecidableEq

/-- The `E2EE` constructor: every field `null`. -/
def E2EE.new : E2EE :=
  ⟨none, none, none⟩

/-- Failures of the crypto wrapper (§7 taxonomy): `NotReady` is the thrown
`Encryption key not established`, `AuthenticationFailed` the thrown
`Failed to decrypt message`. -/
inductive CryptoError
  | NotReady
  | AuthenticationFailed
deriving Repr, DecidableEq

/-- The wire envelope produced by `E2EE.encrypt`:
`{encryptedData, iv, tag}` as byte strings. -/
structure Envelope where
  encryptedData : Bytes
  iv : Bytes
  tag : Bytes
deriving Repr, DecidableEq

/-- Source `E2EE.computeSharedSecret(peerPublicKey)`: import the peer key (fails
on a malformed key), derive the ECDH bits with the own private key (fails
when no key pair exists), then stretch through PBKDF2 with the fixed salt
and 100000 iterations and store the AES key.  Returns the new state and the
`true`/`false` success flag; on failure the state is unchanged. -/
def E2EE.computeSharedSecret (st : E2EE) (peerPub : Nat) : E2EE × Bool :=
  if ¬ validPeerKey peerPub then (st, false)
  else match st.keyPair with
  | none => (st, false)
  | some kp =>
    let bits := ecdhBits kp.priv peerPub
    let key := pbkdf2 bits saltBytes 100000
    ({ st with sharedSecret := some bits, encryptionKey := some key }, true)

/-- Source `E2EE.encrypt(message)`: throw `NotReady` when no encryption key is
established; otherwise AES-GCM-encrypt under the given fresh 96-bit IV
(randomness passed in), split the last 16 bytes off as the tag, and return
`{encryptedData, iv, tag}`. -/
def E2EE.encrypt (st : E2EE) (iv : Bytes) (message : Bytes) :
    Except CryptoError Envelope :=
  match st.encryptionKey with
  | none => .error .NotReady
  | some key =>
    let encrypted := aesGcmEncrypt key iv message
    let ciphertext := encrypted.take (encrypted.length - 16)
    let tag := encrypted.drop (encrypted.length - 16)
    .ok ⟨ciphertext, iv, tag⟩

/-- Source `E2EE.decrypt(encryptedData, iv, tag)`: throw `NotReady` when no
encryption key is established; otherwise re-join ciphertext and tag and
AES-GCM-decrypt, failing with `AuthenticationFailed` when tag verification
rejects. -/
def E2EE.decrypt (st : E2EE) (encryptedData iv tag : Bytes) :
    Except CryptoError Bytes :=
  match st.encryptionKey with
  | none => .error .NotReady
  | some key =>
    match aesGcmDecrypt key iv (encryptedData ++ tag) with
    | none => .error .AuthenticationFailed
    | some m => .ok m

/-- Source `E2EE.isReady()`: `this.encryptionKey !== null`. -/
def E2EE.isReady (st : E2EE) : Bool :=
  st.encryptionKey.isSome

/-- Source `E2EE.reset()`: drop all key material. -/
def E2EE.reset (_st : E2EE) : E2EE :=
  ⟨none, none, none⟩

/-! ## Registry lemmas -/

theorem regGet_regSet_self (r : Registry) (id : SessionId) (s : Session) :
    regGet (regSet r id s) id = some s := by
  induction r with
  | nil => simp [regGet, regSet]
  | cons kv r ih =>
    by_cases h : kv.1 = id
    · simp [regGet, regSet, h]
    · simp [regGet, regSet, h, ih]

theorem regGet_regSet_ne (r : Registry) (id id' : SessionId) (s : Session)
    (h : id ≠ id') : regGet (regSet r id s) id' = regGet r id' := by
  induction r with
  | nil => simp [regGet, regSet, h]
  | cons kv r ih =>
    by_cases hk : kv.1 = id
    · simp [regGet, regSet, hk, h]
    · by_cases hk' : kv.1 = id'
      · simp [regGet, regSet, hk, hk', Ne.symm h]
      · simp [regGet, regSet, hk, hk', ih]

theorem regGet_regDelete_self (r : Registry) (id : SessionId) :
    regGet (regDelete r id) id = none := by
  induction r with
  | nil => simp [regGet, regDelete]
  | cons kv r ih =>
    by_cases h : kv.1 = id
    · simp [regDelete, h, ih]
    · simp [regGet, regDelete, h, ih]

theorem regGet_regDelete_ne (r : Registry) (id id' : SessionId) (h : id ≠ id') :
    regGet (regDelete r id) id' = regGet r id' := by
  induction r with
  | nil => simp [regDelete]
  | cons kv r ih =>
    by_cases hk : kv.1 = id
    · have : kv.1 ≠ id' := hk ▸ h
      simp [regGet, regDelete, hk, this, h, ih]
    · simp [regGet, regDelete, hk, ih]

/-- Lemma: `updateSessionActivity` only rewrites `lastActivity`: the users,
creation time and capacity of every session in the registry are unchanged,
as is the set of session ids present. -/
theorem updateSessionActivity_frame (r : Registry) (now : Time) (id sid : SessionId) :
    (regGet (updateSessionActivity r now id) sid).map
        (fun s => (s.users, s.createdAt, s.maxUsers))
      = (regGet r sid).map (fun s => (s.users, s.createdAt, s.maxUsers)) := by
  unfold updateSessionActivity
  cases hg : regGet r id with
  | none => rfl
  | some s =>
    by_cases h : id = sid
    · subst h
      simp [regGet_regSet_self, hg]
    · simp [regGet_regSet_ne r id sid _ h]

/-! ## E2EE model lemmas -/

theorem maskFrom_length (key ivh : Nat) : ∀ (i : Nat) (m : Bytes),
    (maskFrom key ivh i m).length = m.length
  | _, [] => rfl
  | i, _ :: bs => by
    simp [maskFrom, maskFrom_length key ivh (i + 1) bs]

theorem maskFrom_maskFrom (key ivh : Nat) : ∀ (i : Nat) (m : Bytes),
    maskFrom key ivh i (maskFrom key ivh i m) = m
  | _, [] => rfl
  | i, b :: bs => by
    simp [maskFrom, maskFrom_maskFrom key ivh (i + 1) bs, Nat.xor_assoc, Nat.xor_self,
      Nat.xor_zero]

theorem computeTag_length (key ivh : Nat) (ct : Bytes) :
    (computeTag key ivh ct).length = 16 := by
  simp [computeTag]

theorem regSet_regSet (r : Registry) (id : SessionId) (s1 s2 : Session) :
    regSet (regSet r id s1) id s2 = regSet r id s2 := by
  induction r with
  | nil => simp [regSet]
  | cons kv r ih =>
    by_cases h : kv.1 = id
    · simp [regSet, h]
    · simp [regSet, h, ih]

theorem addUser_createdAt (s : Session) (c : ConnId) :
    (addUser s c).createdAt = s.createdAt := by
  unfold addUser
  split <;> rfl

theorem addUser_maxUsers (s : Session) (c : ConnId) :
    (addUser s c).maxUsers = s.maxUsers := by
  unfold addUser
  split <;> rfl

theorem mem_addUser (s : Session) (c : ConnId) : c ∈ (addUser s c).users := by
  unfold addUser
  split
  · assumption
  · simp

/-- AES-GCM model round trip: decrypting an encryption under the same key
and IV verifies the tag and recovers the plaintext. -/
theorem aesGcm_roundtrip (key : Nat) (iv m : Bytes) :
    aesGcmDecrypt key iv (aesGcmEncrypt key iv m) = some m := by
  have hexp : aesGcmEncrypt key iv m
      = maskFrom key (ivSeed iv) 0 m
        ++ computeTag key (ivSeed iv) (maskFrom key (ivSeed iv) 0 m) := rfl
  have hlen : (aesGcmEncrypt key iv m).length
      = (maskFrom key (ivSeed iv) 0 m).length + 16 := by
    rw [hexp]
    simp [computeTag_length]
  have htake : (aesGcmEncrypt key iv m).take ((aesGcmEncrypt key iv m).length - 16)
      = maskFrom key (ivSeed iv) 0 m := by
    rw [hlen, Nat.add_sub_cancel, hexp, List.take_left]
  have hdrop : (aesGcmEncrypt key iv m).drop ((aesGcmEncrypt key iv m).length - 16)
      = computeTag key (ivSeed iv) (maskFrom key (ivSeed iv) 0 m) := by
    rw [hlen, Nat.add_sub_cancel, hexp, List.drop_left]
  unfold aesGcmDecrypt
  rw [htake, hdrop, if_pos rfl, maskFrom_maskFrom]

/-! ## Claim theorems -/

/-- C5: `isSessionValidForMessaging` (the spec's `canRelay`) is true iff the
session exists and `now - createdAt < SESSION_EXPIRY_MS` — in particular it
is not gated on the participant count, so a full session stays
relay-valid, and it turns false exactly at the expiry horizon. -/
theorem canRelay_iff (r : Registry) (now : Time) (id : SessionId) :
    (isSessionValidForMessaging r now id).1 = true ↔
      ∃ s, regGet r id = some s ∧ now - s.createdAt < SESSION_EXPIRY_MS := by
  unfold isSessionValidForMessaging
  cases hg : regGet r id with
  | none => simp
  | some s =>
    by_cases h : SESSION_EXPIRY_MS ≤ now - s.createdAt
    · simp only [if_pos h]
      constructor
      · intro hc
        exact absurd hc (by simp)
      · rintro ⟨s', hs', hlt⟩
        injection hs' with he
        subst he
        exact absurd hlt (not_lt.mpr h)
    · simp only [if_neg h]
      constructor
      · intro _
        exact ⟨s, rfl, not_le.mp h⟩
      · intro _
        trivial

/-- C7: `updateSessionActivity` (the spec's `touch`) changes only the
`lastActivity` field — users, creation time and capacity of every session
are untouched — and therefore the expiry verdict of
`isSessionValidForMessaging` at any time is unchanged: activity refreshes
never extend the expiry horizon. -/
theorem touch_frame (r : Registry) (now : Time) (id sid : SessionId) :
    ((regGet (updateSessionActivity r now id) sid).map
        (fun s => (s.users, s.createdAt, s.maxUsers))
      = (regGet r sid).map (fun s => (s.users, s.createdAt, s.maxUsers)))
  ∧ ∀ t : Time, (isSessionValidForMessaging (updateSessionActivity r now id) t sid).1
      = (isSessionValidForMessaging r t sid).1 := by
  refine ⟨updateSessionActivity_frame r now id sid, ?_⟩
  intro t
  have hframe := updateSessionActivity_frame r now id sid
  cases hg' : regGet (updateSessionActivity r now id) sid with
  | none =>
    cases hg : regGet r sid with
    | none => simp [isSessionValidForMessaging, hg', hg]
    | some s =>
      rw [hg', hg] at hframe
      exact absurd hframe (by simp)
  | some s' =>
    cases hg : regGet r sid with
    | none =>
      rw [hg', hg] at hframe
      exact absurd hframe (by simp)
    | some s =>
      rw [hg', hg] at hframe
      simp only [Option.map_some', Option.some.injEq, Prod.mk.injEq] at hframe
      obtain ⟨-, hc, -⟩ := hframe
      unfold isSessionValidForMessaging
      rw [hg', hg]
      by_cases ht : SESSION_EXPIRY_MS ≤ t - s.createdAt
      · simp [hc, ht]
      · simp [hc, ht]

/-- C9: `computeSharedSecret` is idempotent — with the same own key pair and
the same peer public key, a second call derives exactly the same symmetric
key (the PBKDF2 derivation uses the fixed salt and iteration count and no
internal nonce), and succeeds or fails the same way. -/
theorem computeSharedSecret_idempotent (st : E2EE) (peer : Nat) :
    (E2EE.computeSharedSecret (E2EE.computeSharedSecret st peer).1 peer).1.encryptionKey
      = (E2EE.computeSharedSecret st peer).1.encryptionKey
  ∧ (E2EE.computeSharedSecret (E2EE.computeSharedSecret st peer).1 peer).2
      = (E2EE.computeSharedSecret st peer).2 := by
  unfold E2EE.computeSharedSecret
  by_cases hv : validPeerKey peer = true
  · cases hk : st.keyPair with
    | none => simp [hv, hk]
    | some kp => simp [hv, hk]
  · simp [hv]

/-- C8: before a successful key derivation (`encryptionKey` still `null`,
as in a fresh `E2EE` instance) both `encrypt` and `decrypt` fail with
`NotReady` and return no result. -/
theorem notReady_spec :
    E2EE.new.encryptionKey = none
  ∧ ∀ (st : E2EE) (iv m ed ivb tg : Bytes), st.encryptionKey = none →
      E2EE.encrypt st iv m = .error .NotReady
      ∧ E2EE.decrypt st ed ivb tg = .error .NotReady := by
  refine ⟨rfl, ?_⟩
  intro st iv m ed ivb tg h
  constructor
  · unfold E2EE.encrypt
    rw [h]
  · unfold E2EE.decrypt
    rw [h]

theorem notReady_spec_witness :
    E2EE.encrypt E2EE.new [] [] = .error .NotReady
  ∧ E2EE.decrypt E2EE.new [] [] [] = .error .NotReady :=
  notReady_spec.2 E2EE.new [] [] [] [] [] rfl

/-- C10: the `key-exchange` handler forwards `{publicKey}` to the sender's
session room whenever a session id is associated, silently drops it
otherwise, and never consults the registry — no expiry, existence or
membership check is applied. -/
theorem keyExchange_spec (r : Registry) (cur : Option SessionId) (pk : String) :
    (cur = none → keyExchange r cur pk = none)
  ∧ (∀ sid, cur = some sid → keyExchange r cur pk = some (sid, pk))
  ∧ (∀ r' : Registry, keyExchange r' cur pk = keyExchange r cur pk) := by
  refine ⟨?_, ?_, ?_⟩
  · intro h
    subst h
    rfl
  · intro sid h
    subst h
    rfl
  · intro r'
    rfl

theorem keyExchange_spec_witness :
    keyExchange [] (some ("S")) "PK" = some ("S", "PK") :=
  (keyExchange_spec [] (some ("S")) "PK").2.1 ("S") rfl

/-- C1: once a derived key is established, decrypting the envelope produced
by `encrypt` (ciphertext/IV/tag re-joined exactly as `decrypt` does)
returns the original plaintext. -/
theorem encrypt_decrypt_roundtrip (st : E2EE) (k : Nat)
    (hk : st.encryptionKey = some k) (iv m : Bytes) :
    ∃ env : Envelope, E2EE.encrypt st iv m = .ok env
      ∧ E2EE.decrypt st env.encryptedData env.iv env.tag = .ok m := by
  refine ⟨⟨(aesGcmEncrypt k iv m).take ((aesGcmEncrypt k iv m).length - 16), iv,
    (aesGcmEncrypt k iv m).drop ((aesGcmEncrypt k iv m).length - 16)⟩, ?_, ?_⟩
  · unfold E2EE.encrypt
    rw [hk]
  · unfold E2EE.decrypt
    rw [hk]
    show (match aesGcmDecrypt k iv _ with
      | none => Except.error CryptoError.AuthenticationFailed
      | some m => Except.ok m) = Except.ok m
    rw [List.take_append_drop, aesGcm_roundtrip]

theorem encrypt_decrypt_roundtrip_witness :
    ∃ env : Envelope,
      E2EE.encrypt ⟨none, none, some 12345⟩ [1, 2, 3, 4, 5, 6, 7, 8, 9, 10, 11, 12]
          [72, 101, 108, 108, 111] = .ok env
      ∧ E2EE.decrypt ⟨none, none, some 12345⟩ env.encryptedData env.iv env.tag
          = .ok [72, 101, 108, 108, 111] :=
  encrypt_decrypt_roundtrip ⟨none, none, some 12345⟩ 12345 rfl
    [1, 2, 3, 4, 5, 6, 7, 8, 9, 10, 11, 12] [72, 101, 108, 108, 111]

/-- C2: admission on a well-formed session id fails with `NotFound` when
the id is not in the registry; with `Expired` (evicting the session) when
`now - createdAt ≥ SESSION_EXPIRY_MS`; with `Full` when the session
already holds 2 participants; and otherwise adds the connection, refreshes
`lastActivity` to `now`, keeps `createdAt` and capacity, and yields
`Initiator` exactly when the post-admission participant count is 1. -/
theorem joinSession_spec (r : Registry) (now : Time) (id : SessionId) (conn : ConnId)
    (hfmt : isValidSessionId id = true) :
    (regGet r id = none → joinSession r now id conn = (.error .NotFound, r))
  ∧ (∀ s, regGet r id = some s → SESSION_EXPIRY_MS ≤ now - s.createdAt →
      joinSession r now id conn = (.error .Expired, regDelete r id))
  ∧ (∀ s, regGet r id = some s → now - s.createdAt < SESSION_EXPIRY_MS →
      s.maxUsers = 2 → 2 ≤ s.users.length →
      joinSession r now id conn = (.error .Full, r))
  ∧ (∀ s, regGet r id = some s → now - s.createdAt < SESSION_EXPIRY_MS →
      s.maxUsers = 2 → s.users.length < 2 →
      ∃ role s',
        joinSession r now id conn = (.ok role, regSet r id s')
        ∧ s'.users = (addUser s conn).users
        ∧ conn ∈ s'.users
        ∧ s'.lastActivity = now
        ∧ s'.createdAt = s.createdAt
        ∧ s'.maxUsers = s.maxUsers
        ∧ (role = .Initiator ↔ s'.users.length = 1)
        ∧ (∀ id', id' ≠ id → regGet (regSet r id s') id' = regGet r id')) := by
  refine ⟨?_, ?_, ?_, ?_⟩
  · intro h
    simp [joinSession, hfmt, h]
  · intro s hs hE
    simp [joinSession, hfmt, hs, hE]
  · intro s hs hlt hm hfull
    have hexp : ¬ SESSION_EXPIRY_MS ≤ now - s.createdAt := not_le.mpr hlt
    have hcap : s.maxUsers ≤ s.users.length := by
      rw [hm]
      exact hfull
    simp [joinSession, hfmt, hs, hexp, hcap]
  · intro s hs hlt hm hroom
    have hexp : ¬ SESSION_EXPIRY_MS ≤ now - s.createdAt := not_le.mpr hlt
    have hcap : ¬ s.maxUsers ≤ s.users.length := by
      rw [hm]
      exact not_le.mpr hroom
    by_cases hrole : (addUser s conn).users.length = 1
    · refine ⟨.Initiator, { addUser s conn with lastActivity := now }, ?_,
        rfl, mem_addUser s conn, rfl, addUser_createdAt s conn, addUser_maxUsers s conn,
        by simp [hrole], ?_⟩
      · simp [joinSession, hfmt, hs, hexp, hcap, updateSessionActivity, regGet_regSet_self,
          regSet_regSet, hrole]
      · intro id' hne
        exact regGet_regSet_ne r id id' _ (Ne.symm hne)
    · refine ⟨.Joiner, { addUser s conn with lastActivity := now }, ?_,
        rfl, mem_addUser s conn, rfl, addUser_createdAt s conn, addUser_maxUsers s conn,
        by simp [hrole], ?_⟩
      · simp [joinSession, hfmt, hs, hexp, hcap, updateSessionActivity, regGet_regSet_self,
          regSet_regSet, hrole]
      · intro id' hne
        exact regGet_regSet_ne r id id' _ (Ne.symm hne)

theorem joinSession_spec_witness :
    ∃ role s',
      joinSession [(sid0, ⟨[], 0, 0, 2⟩)] 5 sid0 ("c1")
          = (.ok role, regSet [(sid0, ⟨[], 0, 0, 2⟩)] sid0 s')
      ∧ s'.users = (addUser ⟨[], 0, 0, 2⟩ "c1").users
      ∧ "c1" ∈ s'.users
      ∧ s'.lastActivity = 5
      ∧ s'.createdAt = Session.createdAt ⟨[], 0, 0, 2⟩
      ∧ s'.maxUsers = Session.maxUsers ⟨[], 0, 0, 2⟩
      ∧ (role = .Initiator ↔ s'.users.length = 1)
      ∧ (∀ id', id' ≠ sid0 →
          regGet (regSet [(sid0, ⟨[], 0, 0, 2⟩)] sid0 s') id'
            = regGet [(sid0, ⟨[], 0, 0, 2⟩)] id') :=
  (joinSession_spec [(sid0, ⟨[], 0, 0, 2⟩)] 5 sid0 ("c1") (by decide)).2.2.2
    ⟨[], 0, 0, 2⟩ (by decide) (by decide) rfl (by decide)

/-- C3: relaying an encrypted envelope fails with `NoSession` without an
associated session id; with `SessionInvalid` when
`isSessionValidForMessaging` rejects (keeping its eviction side effect);
with `NotAMember` when the sender is not in the session's user set; and on
success refreshes activity and forwards `{encryptedData, iv, tag}`
unchanged together with the relay-side timestamp (the `publicKey` input is
not forwarded). -/
theorem relayMessage_spec (r : Registry) (now : Time) (cur : Option SessionId)
    (sender : ConnId) (e i t p : String) :
    (cur = none → relayMessage r now cur sender e i t p = (.error .NoSession, r))
  ∧ (∀ sid, cur = some sid → (isSessionValidForMessaging r now sid).1 = false →
      relayMessage r now cur sender e i t p
        = (.error .SessionInvalid, (isSessionValidForMessaging r now sid).2))
  ∧ (∀ sid s, cur = some sid → regGet r sid = some s →
      now - s.createdAt < SESSION_EXPIRY_MS → sender ∉ s.users →
      relayMessage r now cur sender e i t p = (.error .NotAMember, r))
  ∧ (∀ sid s, cur = some sid → regGet r sid = some s →
      now - s.createdAt < SESSION_EXPIRY_MS → sender ∈ s.users →
      relayMessage r now cur sender e i t p
        = (.ok (sid, ⟨e, i, t, now⟩), updateSessionActivity r now sid)) := by
  refine ⟨?_, ?_, ?_, ?_⟩
  · intro h
    subst h
    rfl
  · intro sid hc hv
    subst hc
    unfold relayMessage
    cases hval : isSessionValidForMessaging r now sid with
    | mk valid r1 =>
      rw [hval] at hv
      simp only at hv
      subst hv
      simp [hval]
  · intro sid s hc hs hlt hmem
    subst hc
    have hval : isSessionValidForMessaging r now sid = (true, r) := by
      simp [isSessionValidForMessaging, hs, not_le.mpr hlt]
    unfold relayMessage
    simp [hval, hs, hmem]
  · intro sid s hc hs hlt hmem
    subst hc
    have hval : isSessionValidForMessaging r now sid = (true, r) := by
      simp [isSessionValidForMessaging, hs, not_le.mpr hlt]
    unfold relayMessage
    simp [hval, hs, hmem]

theorem relayMessage_spec_witness :
    relayMessage [(sid0, ⟨["alice", "bob"], 0, 0, 2⟩)] 5 (some sid0) "alice"
        "CT" "IV" "TAG" "PK"
      = (.ok (sid0, ⟨"CT", "IV", "TAG", 5⟩),
         updateSessionActivity [(sid0, ⟨["alice", "bob"], 0, 0, 2⟩)] 5 sid0) :=
  (relayMessage_spec [(sid0, ⟨["alice", "bob"], 0, 0, 2⟩)] 5 (some sid0) "alice"
      "CT" "IV" "TAG" "PK").2.2.2 sid0 ⟨["alice", "bob"], 0, 0, 2⟩ rfl (by decide)
    (by decide) (by decide)

/-- C4 counterexample: the `/chat/new` route calls `createSession` and
redirects without admitting anyone, leaving a reachable registry state that
contains a session with zero participants; that session survives the
periodic sweep (here at a later, pre-expiry time), i.e. it persists well
beyond the relay cycle that created it. -/
theorem empty_session_persists :
    Reachable [(sid0, ⟨[], 0, 0, 2⟩)]
  ∧ regGet [(sid0, ⟨[], 0, 0, 2⟩)] sid0 = some ⟨[], 0, 0, 2⟩
  ∧ regGet (sweepOp [(sid0, ⟨[], 0, 0, 2⟩)] 1000) sid0 = some ⟨[], 0, 0, 2⟩ := by
  refine ⟨Reachable.createHttp [] sid0 0 Reachable.empty, by decide, by decide⟩

/-- C4 (amended): the departure half of the claim holds — when removing a
connection empties a session's participant set, `disconnectOp` deletes the
session from the registry immediately, and the session a disconnect
touches is never left behind with zero participants. -/
theorem disconnect_cleanup (r : Registry) (sid : SessionId) (conn : ConnId) :
    (∀ s, regGet r sid = some s → s.users.filter (fun u => u ≠ conn) = [] →
      regGet (disconnectOp r (some sid) conn) sid = none)
  ∧ (∀ s', regGet (disconnectOp r (some sid) conn) sid = some s' → s'.users ≠ []) := by
  constructor
  · intro s hs hempty
    unfold disconnectOp
    simp only [hs, hempty, List.length_nil]
    rw [if_pos trivial]
    exact regGet_regDelete_self r sid
  · intro s' hs'
    unfold disconnectOp at hs'
    cases hg : regGet r sid with
    | none =>
      simp only [hg] at hs'
      cases hs'
    | some s =>
      simp only [hg] at hs'
      by_cases hlen : (s.users.filter (fun u => u ≠ conn)).length = 0
      · rw [if_pos hlen, regGet_regDelete_self] at hs'
        cases hs'
      · rw [if_neg hlen, regGet_regSet_self] at hs'
        injection hs' with he
        rw [← he]
        show s.users.filter (fun u => u ≠ conn) ≠ []
        intro hnil
        exact hlen (by rw [hnil]; rfl)

theorem disconnect_cleanup_witness :
    regGet (disconnectOp [(sid0, ⟨["alice"], 0, 0, 2⟩)] (some sid0) "alice") sid0 = none :=
  (disconnect_cleanup [(sid0, ⟨["alice"], 0, 0, 2⟩)] sid0 ("alice")).1
    ⟨["alice"], 0, 0, 2⟩ (by decide) (by decide)

/-- C6 counterexample: the `typing` handler does not apply the
session-validity and membership checks of the `encrypted-message` handler.
With an empty registry and a stale session association, an encrypted
envelope is refused with `SessionInvalid` while the typing notice is still
forwarded to the session's room. -/
theorem typing_skips_validity_checks :
    (relayMessage [] 0 (some ("S")) "alice" "CT" "IV" "TAG" "PK").1
        = .error .SessionInvalid
  ∧ relayTyping [] (some ("S")) "u1" true = some ("S", "u1", true) := by
  exact ⟨rfl, rfl⟩

/-- C6 (amended): a typing notice is forwarded to the sender's session room
whenever a session id is associated and silently dropped otherwise; the
handler consults no registry state, so no session-validity or membership
check precedes the forwarding. -/
theorem relayTyping_spec (r : Registry) (cur : Option SessionId) (u : String) (b : Bool) :
    (cur = none → relayTyping r cur u b = none)
  ∧ (∀ sid, cur = some sid → relayTyping r cur u b = some (sid, u, b))
  ∧ (∀ r' : Registry, relayTyping r' cur u b = relayTyping r cur u b) := by
  refine ⟨?_, ?_, ?_⟩
  · intro h
    subst h
    rfl
  · intro sid h
    subst h
    rfl
  · intro r'
    rfl

theorem relayTyping_spec_witness :
    relayTyping [] (some ("S")) "u1" false = some ("S", "u1", false) :=
  (relayTyping_spec [] (some ("S")) "u1" false).2.1 ("S") rfl

end SecureChat
